import Mathlib

/-!
Shallow embedding of the OpenScans python backend (result-extraction pipeline
and model cache manager) for verification of its natural-language specification.

The embedded code lives in `python-backend/inference.py` (class
`VertebraeDetector`: `run_inference`, `_parse_segmentation_results`,
`_vertebra_sort_key`) and `python-backend/model_manager.py` (class
`ModelManager`: `download_model`, `delete_model`), with the task registry
from `python-backend/config.py`.

Machine reals (Python floats) are embedded as `Rat`; Python `round` is
embedded as round-half-to-even on rationals.  Python exceptions are embedded
as `Except String` / `Option` results; external effects (DICOM loading, the
TotalSegmentator call, filesystem state) are embedded as explicit
environment/state records supplied to the functions.
-/

instance {ε α : Type} [DecidableEq ε] [DecidableEq α] : DecidableEq (Except ε α) :=
  fun x y =>
    match x, y with
    | .ok a, .ok b =>
      if h : a = b then isTrue (by rw [h]) else isFalse (by simp [h])
    | .error e, .error f =>
      if h : e = f then isTrue (by rw [h]) else isFalse (by simp [h])
    | .ok _, .error _ => isFalse (by simp)
    | .error _, .ok _ => isFalse (by simp)

namespace OpenScans

/-- Python builtin `round(x)`: round half to even (banker's rounding),
embedded on rationals (`Rat.floor` keeps the definition kernel-evaluable). -/
def pyRound (q : Rat) : Int :=
  if q - q.floor = 1 / 2 then (if q.floor % 2 = 0 then q.floor else q.floor + 1)
  else (q + 1 / 2).floor

/-- Python builtin `round(x, n)`: round to `n` decimal digits. -/
def roundTo (n : Nat) (q : Rat) : Rat :=
  (pyRound (q * 10 ^ n) : Rat) / 10 ^ n

/-- The executable `Rat.floor` is Mathlib's `⌊⌋`. -/
theorem ratFloor_eq (q : Rat) : q.floor = ⌊q⌋ := by
  rw [Rat.floor_def', Rat.floor_def]

/-- `pyRound` agrees with the identity on integers. -/
theorem pyRound_intCast (n : Int) : pyRound (n : Rat) = n := by
  unfold pyRound
  simp only [ratFloor_eq, Int.floor_intCast]
  have h : ((n : Rat) - n) = 0 := by ring
  rw [h]
  have h2 : ⌊(n : Rat) + 1 / 2⌋ = n := by
    rw [add_comm, Int.floor_add_int]
    norm_num
  rw [if_neg (by norm_num : ¬((0 : Rat) = 1 / 2))]
  exact h2

/-- `pyRound` lies between floor and ceiling. -/
theorem pyRound_bounds (q : Rat) : ⌊q⌋ ≤ pyRound q ∧ pyRound q ≤ ⌈q⌉ := by
  unfold pyRound
  simp only [ratFloor_eq]
  by_cases h : q - ⌊q⌋ = 1 / 2
  · rw [if_pos h]
    have hq : (⌊q⌋ : Rat) < q := by
      have : q = (⌊q⌋ : Rat) + 1 / 2 := by linarith
      rw [this]; norm_num
    have hfc : ⌊q⌋ < ⌈q⌉ := by
      have h2 : (⌊q⌋ : Rat) < (⌈q⌉ : Rat) := lt_of_lt_of_le hq (Int.le_ceil q)
      exact_mod_cast h2
    by_cases h2 : ⌊q⌋ % 2 = 0
    · rw [if_pos h2]; omega
    · rw [if_neg h2]; omega
  · rw [if_neg h]
    constructor
    · exact Int.floor_le_floor (by linarith)
    · have h1 : q + 1 / 2 < (⌈q⌉ : Rat) + 1 := by
        have := Int.le_ceil q
        linarith
      have h2 : (⌊q + 1 / 2⌋ : Rat) ≤ q + 1 / 2 := Int.floor_le _
      have h3 : (⌊q + 1 / 2⌋ : Rat) < (⌈q⌉ : Rat) + 1 := lt_of_le_of_lt h2 h1
      exact_mod_cast Int.lt_add_one_iff.mp (by exact_mod_cast h3)

/-! ### `VertebraeDetector._vertebra_sort_key`

`inference.py` lines 218-234: the sort key is
`(section_order.get(label[0], 999), int(label[1:]))`.  Python `label[0]`
raises `IndexError` on an empty label and `int(...)` raises `ValueError` on a
non-numeric remainder, so the embedded key is partial (`Option`). -/

/-- `section_order.get(section, 999)` with `section_order =
{"C": 0, "T": 1, "L": 2, "S": 3}`. -/
def sectionOrder (c : Char) : Nat :=
  if c = 'C' then 0 else if c = 'T' then 1 else if c = 'L' then 2
  else if c = 'S' then 3 else 999

/-- Digits-to-value accumulator for the embedding of Python `int(...)`. -/
def digitsVal (cs : List Char) : Nat :=
  cs.foldl (fun a c => a * 10 + (c.toNat - 48)) 0

/-- Python builtin `int(s)` on a string: optional sign followed by a
non-empty run of decimal digits; anything else raises `ValueError`
(embedded as `none`). -/
def pyInt (cs : List Char) : Option Int :=
  match cs with
  | [] => none
  | '-' :: rest =>
    if rest ≠ [] ∧ rest.all Char.isDigit then some (-(digitsVal rest : Int)) else none
  | '+' :: rest =>
    if rest ≠ [] ∧ rest.all Char.isDigit then some (digitsVal rest : Int) else none
  | _ =>
    if cs.all Char.isDigit then some (digitsVal cs : Int) else none

/-- `VertebraeDetector._vertebra_sort_key`: `none` means the Python call
raises (`IndexError` on empty label, `ValueError` from `int`). -/
def vertebraSortKey (label : String) : Option (Nat × Int) :=
  match label.data with
  | [] => none
  | c :: rest => (pyInt rest).map (fun n => (sectionOrder c, n))

/-- Lexicographic order on the sort keys, as Python compares tuples. -/
def keyLe (k1 k2 : Nat × Int) : Prop :=
  k1.1 < k2.1 ∨ (k1.1 = k2.1 ∧ k1.2 ≤ k2.2)

instance : DecidableRel keyLe := fun k1 k2 =>
  inferInstanceAs (Decidable (k1.1 < k2.1 ∨ (k1.1 = k2.1 ∧ k1.2 ≤ k2.2)))

/-- Key order lifted to key-decorated elements. -/
def pairKeyLe {α : Type} (p q : (Nat × Int) × α) : Prop := keyLe p.1 q.1

instance {α : Type} : DecidableRel (@pairKeyLe α) := fun p q =>
  inferInstanceAs (Decidable (keyLe p.1 q.1))

theorem keyLe_total (k1 k2 : Nat × Int) : keyLe k1 k2 ∨ keyLe k2 k1 := by
  unfold keyLe; omega

theorem keyLe_trans (k1 k2 k3 : Nat × Int) :
    keyLe k1 k2 → keyLe k2 k3 → keyLe k1 k3 := by
  unfold keyLe; omega

instance {α : Type} : IsTotal ((Nat × Int) × α) pairKeyLe :=
  ⟨fun p q => keyLe_total p.1 q.1⟩

instance {α : Type} : IsTrans ((Nat × Int) × α) pairKeyLe :=
  ⟨fun p q r h1 h2 => keyLe_trans p.1 q.1 r.1 h1 h2⟩

/-- Key computation pass of Python `list.sort(key=...)`: the key of every
element is computed up front; any raising key aborts the sort (`none`). -/
def decorateKeys {α : Type} (f : α → String) : List α → Option (List ((Nat × Int) × α))
  | [] => some []
  | a :: as =>
    match vertebraSortKey (f a), decorateKeys f as with
    | some k, some rest => some ((k, a) :: rest)
    | _, _ => none

/-- Python `list.sort(key=self._vertebra_sort_key ∘ f)`: a stable sort by the
key (Python's timsort is stable; a stable sort by a total preorder is
extensionally unique, embedded here by stable insertion sort).  `none` embeds
the `ValueError`/`IndexError` escaping from the key function. -/
def sortByVertebraKey {α : Type} (f : α → String) (xs : List α) : Option (List α) :=
  (decorateKeys f xs).map (fun keyed => (keyed.insertionSort pairKeyLe).map Prod.snd)

/-- The ordering policy applied to bare label strings. -/
def sortLabels (ls : List String) : Option (List String) :=
  sortByVertebraKey id ls

/-- `a` is at most `b` in the anatomical order: both keys are defined and
compare lexicographically. -/
def labelLe (a b : String) : Prop :=
  ∃ ka kb, vertebraSortKey a = some ka ∧ vertebraSortKey b = some kb ∧ keyLe ka kb

/-- The label has a recognised section letter (C, T, L or S). -/
def knownSection (l : String) : Prop :=
  match l.data with
  | [] => False
  | c :: _ => sectionOrder c ≠ 999

/-! ### `VertebraeDetector._parse_segmentation_results`

`inference.py` lines 117-216.  The filesystem contents of the
TotalSegmentator output directory are embedded as a list of mask files; a
mask grid is embedded by the list of its occupied voxel indices in numpy
storage order `(z, y, x)` (the result of `np.argwhere(mask_array > 0)`).
A file whose `sitk.ReadImage` raises is embedded as `corrupt`. -/

/-- Fuel-indexed deletion of every occurrence of `pat` (Python
`s.replace(pat, "")`, left to right, non-overlapping). -/
def pyDeleteAux (pat : List Char) : Nat → List Char → List Char
  | 0, s => s
  | _ + 1, [] => []
  | fuel + 1, c :: rest =>
    if pat ≠ [] ∧ pat.isPrefixOf (c :: rest) then
      pyDeleteAux pat fuel ((c :: rest).drop pat.length)
    else c :: pyDeleteAux pat fuel rest

/-- Python `s.replace(pat, "")`. -/
def pyReplaceEmpty (s pat : String) : String :=
  ⟨pyDeleteAux pat.data s.data.length s.data⟩

/-- Python `s.startswith(pre)`. -/
def pyStartsWith (s pre : String) : Bool :=
  pre.data.isPrefixOf s.data

/-- `(spacing, origin)` of the loaded volume, per axis in SimpleITK
`(x, y, z)` order (`image.GetSpacing()`, `image.GetOrigin()`). -/
structure VolumeMeta where
  spacing : Rat × Rat × Rat
  origin : Rat × Rat × Rat
  deriving DecidableEq

/-- Result of `sitk.ReadImage` + `sitk.GetArrayFromImage` on one mask file:
either the read raises (`corrupt`, carrying the exception text) or it yields
a grid, embedded by its occupied voxel indices in `(z, y, x)` storage order. -/
inductive MaskData where
  | corrupt (err : String)
  | grid (occupied : List (Nat × Nat × Nat))
  deriving DecidableEq

/-- One `*.nii.gz` file of the output directory; `name` is the derived
`label_name` (file stem with the `.nii` suffix removed, e.g.
`vertebrae_L1`). -/
structure MaskFile where
  name : String
  data : MaskData
  deriving DecidableEq

/-- One element of the `vertebrae` result list (the durable
LandmarkRecord).  Coordinate triples are in `(x, y, z)` axis order as in the
emitted dictionary. -/
structure LandmarkRecord where
  label : String
  center : Int × Int × Int
  centerPhysical : Rat × Rat × Rat
  boundsMin : Nat × Nat × Nat
  boundsMax : Nat × Nat × Nat
  confidence : Rat
  voxelCount : Nat
  deriving DecidableEq

/-- Voxel-to-physical map for one axis: `x * spacing[i] + origin[i]`
(`inference.py` lines 173-177). -/
def physOfVoxel (spacing origin x : Rat) : Rat :=
  x * spacing + origin

/-- Inverse of the physical-coordinate transform, as the spec describes it:
`(physical - origin) / spacing`. -/
def voxelOfPhys (spacing origin p : Rat) : Rat :=
  (p - origin) / spacing

/-- `coords.min(axis=0)` for one axis (callers guarantee non-emptiness;
the `[]` value is irrelevant). -/
def minL : List Nat → Nat
  | [] => 0
  | x :: xs => xs.foldl Nat.min x

/-- `coords.max(axis=0)` for one axis. -/
def maxL : List Nat → Nat
  | [] => 0
  | x :: xs => xs.foldl Nat.max x

/-- Coordinate-wise mean of one axis of the occupied voxel indices. -/
def meanL (l : List Nat) : Rat :=
  (l.sum : Rat) / (l.length : Rat)

/-- `confidence = round(float(min(labeled_voxels / 1000, 1.0)), 3)`
(`inference.py` lines 168 and 205). -/
def confidenceOf (v : Nat) : Rat :=
  roundTo 3 (min ((v : Rat) / 1000) 1)

/-- Construction of the emitted record for a non-empty mask
(`inference.py` lines 154-207).  `coords` are in `(z, y, x)` numpy order;
the record's triples are in `(x, y, z)` order as emitted. -/
def mkRecord (meta : VolumeMeta) (vid : String) (coords : List (Nat × Nat × Nat)) :
    LandmarkRecord :=
  let zs := coords.map (fun c => c.1)
  let ys := coords.map (fun c => c.2.1)
  let xs := coords.map (fun c => c.2.2)
  { label := vid
    center := (pyRound (meanL xs), pyRound (meanL ys), pyRound (meanL zs))
    centerPhysical :=
      (roundTo 2 (physOfVoxel meta.spacing.1 meta.origin.1 (meanL xs)),
       roundTo 2 (physOfVoxel meta.spacing.2.1 meta.origin.2.1 (meanL ys)),
       roundTo 2 (physOfVoxel meta.spacing.2.2 meta.origin.2.2 (meanL zs)))
    boundsMin := (minL xs, minL ys, minL zs)
    boundsMax := (maxL xs, maxL ys, maxL zs)
    confidence := confidenceOf coords.length
    voxelCount := coords.length }

/-- Outcome of the per-file loop body for one directory entry. -/
inductive ProcessOutcome where
  | notQualifying
  | corruptSkip (warning : String)
  | emptySkip
  | record (r : LandmarkRecord)

/-- Per-file loop body (`inference.py` lines 135-211): prefix filter, label
derivation, mask load guarded by the per-file `try`, empty-mask skip,
record construction. -/
def processMask (meta : VolumeMeta) (f : MaskFile) : ProcessOutcome :=
  if pyStartsWith f.name "vertebrae_" then
    match f.data with
    | .corrupt e => .corruptSkip ("Warning: Failed to process " ++ f.name ++ ": " ++ e)
    | .grid coords =>
      match coords with
      | [] => .emptySkip
      | _ :: _ => .record (mkRecord meta (pyReplaceEmpty f.name "vertebrae_") coords)
  else .notQualifying

/-- Records appended by the per-file loop, in directory order. -/
def collectRecords (meta : VolumeMeta) (files : List MaskFile) : List LandmarkRecord :=
  files.filterMap (fun f =>
    match processMask meta f with
    | .record r => some r
    | _ => none)

/-- Warnings printed by the per-file loop, in directory order. -/
def collectWarnings (meta : VolumeMeta) (files : List MaskFile) : List String :=
  files.filterMap (fun f =>
    match processMask meta f with
    | .corruptSkip w => some w
    | _ => none)

/-- `VertebraeDetector._parse_segmentation_results`: per-file loop, then the
final `vertebrae.sort(key=self._vertebra_sort_key(v["label"]))`, which runs
outside the per-file `try` and so aborts the whole call when a sort key
raises.  Returns the ordered records and the emitted warnings. -/
def parseSegmentationResults (meta : VolumeMeta) (files : List MaskFile) :
    Except String (List LandmarkRecord × List String) :=
  match sortByVertebraKey (fun r => r.label) (collectRecords meta files) with
  | some sorted => .ok (sorted, collectWarnings meta files)
  | none => .error "ValueError: invalid vertebra label in sort key"

/-! ### `VertebraeDetector.run_inference`

`inference.py` lines 61-115.  The external effects inside the `try` block —
the DICOM load and the TotalSegmentator call — are embedded as an
environment of `Except` outcomes; the elapsed wall-clock time measured by
the two `time.time()` calls is an environment input as well. -/

/-- Outcomes of the external effects during one `run_inference` call. -/
structure InferenceEnv where
  /-- Outcome of `pydicom.dcmread` + `sitk.ReadImage` inside `load_dicom`
  (before the wrapping `ValueError` is attached). -/
  loadResult : Except String VolumeMeta
  /-- Outcome of the `totalsegmentator(...)` call: the mask files it wrote
  into the temporary output directory, or the exception it raised. -/
  segResult : Except String (List MaskFile)
  /-- `(time.time() - start_time) * 1000`. -/
  elapsedMs : Rat

/-- The dictionary returned by `run_inference`; keys absent from the Python
dict are `none`. -/
structure InferenceResult where
  success : Bool
  vertebrae : Option (List LandmarkRecord)
  error : Option String
  processingTimeMs : Rat
  device : Option String
  fastMode : Option Bool

/-- `VertebraeDetector.load_dicom` (`inference.py` lines 39-59): any
exception is re-raised as `ValueError("Failed to load DICOM file: ...")`. -/
def loadDicom (r : Except String VolumeMeta) : Except String VolumeMeta :=
  match r with
  | .ok m => .ok m
  | .error e => .error ("Failed to load DICOM file: " ++ e)

/-- The `try` block of `run_inference`: load, segment, parse; the first
raising step aborts the block with its exception. -/
def runBody (env : InferenceEnv) : Except String (List LandmarkRecord × List String) :=
  match loadDicom env.loadResult with
  | .error e => .error e
  | .ok meta =>
    match env.segResult with
    | .error e => .error e
    | .ok files => parseSegmentationResults meta files

/-- `VertebraeDetector.run_inference`: wraps the `try` block outcome into
the success dictionary or the `except Exception` failure dictionary. -/
def runInference (device : String) (fastMode : Bool) (env : InferenceEnv) :
    InferenceResult :=
  match runBody env with
  | .ok (recs, _) =>
    { success := true
      vertebrae := some recs
      error := none
      processingTimeMs := roundTo 2 env.elapsedMs
      device := some device
      fastMode := some fastMode }
  | .error e =>
    { success := false
      vertebrae := none
      error := some e
      processingTimeMs := roundTo 2 env.elapsedMs
      device := none
      fastMode := none }

/-! ### `ModelManager` (`model_manager.py`) and the task registry
(`config.py`). -/

/-- Keys of `AVAILABLE_TASKS` in `config.py`. -/
def availableTasks : List String := ["vertebrae", "total_body"]

/-- `AVAILABLE_TASKS[task]["name"]`. -/
def taskName (task : String) : String :=
  if task = "vertebrae" then "Vertebrae Segmentation" else "Total Body Segmentation"

/-- State of the shared TotalSegmentator cache root
(`~/.totalsegmentator`): whether the directory exists, and the sizes in
bytes of the files under it. -/
structure CacheState where
  present : Bool
  fileSizes : List Nat
  deriving DecidableEq

/-- The dictionary returned by `delete_model`; the absent-cache branch emits
no `freed_space_mb` key (`none`). -/
structure DeleteResult where
  success : Bool
  message : String
  freedSpaceMb : Option Rat
  deriving DecidableEq

/-- `ModelManager.delete_model` (`model_manager.py` lines 125-153): unknown
task raises `ValueError`; an existing cache root is measured and removed
(the returned state is the post-deletion filesystem); an absent root yields
`success=False` with no freed-space entry. -/
def deleteModel (task : String) (fs : CacheState) :
    Except String (DeleteResult × CacheState) :=
  if availableTasks.contains task then
    if fs.present then
      .ok ({ success := true
             message := "Deleted " ++ task ++ " models"
             freedSpaceMb := some (roundTo 2 ((fs.fileSizes.sum : Rat) / (1024 * 1024))) },
           { present := false, fileSizes := [] })
    else
      .ok ({ success := false
             message := "No models found to delete"
             freedSpaceMb := none }, fs)
  else .error ("Unknown task: " ++ task)

/-- One event pushed to `progress_callback` in `download_model`. -/
structure ProgressEvent where
  status : String
  message : String
  progress : Rat
  deriving DecidableEq

/-- External effects during one `download_model` call. -/
structure DownloadEnv where
  /-- Outcome of the preparation step (the `totalsegmentator` import that
  triggers the runtime's own weight preparation). -/
  prepare : Except String Unit
  /-- `get_model_status(task)["downloaded"]` observed afterwards. -/
  downloaded : Bool

/-- `ModelManager.download_model` (`model_manager.py` lines 68-123):
returns the call outcome (`.error e` embeds an exception propagating to the
caller) together with the events pushed to `progress_callback` (emitted only
when a callback was supplied).  On a preparation failure the `except` block
pushes an error event with `progress=0.0` and then re-raises. -/
def downloadModel (task : String) (hasCallback : Bool) (env : DownloadEnv) :
    Except String Bool × List ProgressEvent :=
  if availableTasks.contains task then
    let ev0 := if hasCallback then
      [ProgressEvent.mk "preparing" ("Preparing to download " ++ taskName task) 0] else []
    match env.prepare with
    | .error e =>
      (.error e,
       ev0 ++ (if hasCallback then
         [ProgressEvent.mk "error" ("Failed to prepare models: " ++ e) 0] else []))
    | .ok _ =>
      let ev1 := if hasCallback then
        [ProgressEvent.mk "downloading" "TotalSegmentator is downloading models..." (1 / 2)]
        else []
      let ev2 := if hasCallback then
        [ProgressEvent.mk (if env.downloaded then "complete" else "ready")
          (if env.downloaded then "Models ready" else "Ready for first use") 1] else []
      (.ok env.downloaded, ev0 ++ ev1 ++ ev2)
  else (.error ("Unknown task: " ++ task), [])

/-! ### Helper lemmas about the ordering policy -/

theorem decorateKeys_spec {α : Type} (f : α → String) :
    ∀ xs keyed, decorateKeys f xs = some keyed →
      keyed.map Prod.snd = xs ∧ ∀ p ∈ keyed, vertebraSortKey (f p.2) = some p.1 := by
  intro xs
  induction xs with
  | nil => intro keyed h; simp only [decorateKeys] at h; cases h; simp
  | cons a as ih =>
    intro keyed h
    simp only [decorateKeys] at h
    cases hk : vertebraSortKey (f a) with
    | none => rw [hk] at h; exact absurd h (by simp)
    | some k =>
      rw [hk] at h
      cases hr : decorateKeys f as with
      | none => rw [hr] at h; exact absurd h (by simp)
      | some rest =>
        rw [hr] at h
        cases h
        obtain ⟨h1, h2⟩ := ih rest hr
        refine ⟨by simp [h1], ?_⟩
        intro p hp
        rcases List.mem_cons.mp hp with h | h
        · subst h; exact hk
        · exact h2 p h

theorem sortByVertebraKey_spec {α : Type} (f : α → String) (xs ys : List α)
    (h : sortByVertebraKey f xs = some ys) :
    ys.Perm xs ∧ ys.Pairwise (fun a b => labelLe (f a) (f b)) := by
  unfold sortByVertebraKey at h
  cases hd : decorateKeys f xs with
  | none => rw [hd] at h; exact absurd h (by simp)
  | some keyed =>
    rw [hd] at h
    simp only [Option.map_some'] at h
    cases h
    obtain ⟨hmap, hkeys⟩ := decorateKeys_spec f xs keyed hd
    constructor
    · rw [← hmap]
      exact (keyed.perm_insertionSort pairKeyLe).map Prod.snd
    · have hsorted : (keyed.insertionSort pairKeyLe).Pairwise pairKeyLe :=
        List.sorted_insertionSort pairKeyLe keyed
      rw [List.pairwise_map]
      refine hsorted.imp_of_mem ?_
      intro p q hp hq hpq
      have hp' : p ∈ keyed := (keyed.mem_insertionSort pairKeyLe).mp hp
      have hq' : q ∈ keyed := (keyed.mem_insertionSort pairKeyLe).mp hq
      exact ⟨p.1, q.1, hkeys p hp', hkeys q hq', hpq⟩

theorem sortByVertebraKey_mem {α : Type} (f : α → String) (xs ys : List α)
    (h : sortByVertebraKey f xs = some ys) : ∀ y ∈ ys, y ∈ xs := by
  intro y hy
  exact ((sortByVertebraKey_spec f xs ys h).1.mem_iff).mp hy

/-- `sectionOrder` takes a known rank (`≤ 3`) or the fallback `999`. -/
theorem sectionOrder_cases (c : Char) : sectionOrder c ≤ 3 ∨ sectionOrder c = 999 := by
  unfold sectionOrder
  by_cases h1 : c = 'C' <;> by_cases h2 : c = 'T' <;> by_cases h3 : c = 'L' <;>
    by_cases h4 : c = 'S' <;> simp [h1, h2, h3, h4]

/-- The first component of a defined sort key is the section rank of the
label's first character. -/
theorem vertebraSortKey_fst (l : String) (k : Nat × Int)
    (h : vertebraSortKey l = some k) :
    ∃ c rest, l.data = c :: rest ∧ k.1 = sectionOrder c := by
  unfold vertebraSortKey at h
  cases hd : l.data with
  | nil => simp only [hd] at h; exact absurd h (by simp)
  | cons c rest =>
    simp only [hd] at h
    cases hp : pyInt rest with
    | none => rw [hp] at h; exact absurd h (by simp)
    | some n =>
      rw [hp] at h
      simp only [Option.map_some'] at h
      cases h
      exact ⟨c, rest, rfl, rfl⟩

/-- In the anatomical order, a label below a known-section label has a known
section itself. -/
theorem labelLe_known (a b : String) (hab : labelLe a b) (hb : knownSection b) :
    knownSection a := by
  obtain ⟨ka, kb, ha, hb', hle⟩ := hab
  obtain ⟨c, rest, hdata, hfst⟩ := vertebraSortKey_fst a ka ha
  obtain ⟨c', rest', hdata', hfst'⟩ := vertebraSortKey_fst b kb hb'
  unfold knownSection at hb ⊢
  rw [hdata]
  rw [hdata'] at hb
  simp only at hb ⊢
  have hkb : kb.1 ≤ 3 := by
    rcases sectionOrder_cases c' with h | h
    · omega
    · exact absurd h hb
  have hka : ka.1 ≤ kb.1 := by
    rcases hle with h | ⟨h, _⟩
    · omega
    · omega
  omega

/-! ### Helper lemmas about the emitted records -/

theorem confidenceOf_eq (v : Nat) : confidenceOf v = min ((v : Rat) / 1000) 1 := by
  unfold confidenceOf roundTo
  rcases le_total ((v : Rat) / 1000) 1 with h | h
  · rw [min_eq_left h]
    have h1 : (v : Rat) / 1000 * 10 ^ 3 = ((v : Int) : Rat) := by push_cast; ring
    rw [h1, pyRound_intCast]
    push_cast
    ring
  · rw [min_eq_right h]
    have h1 : (1 : Rat) * 10 ^ 3 = ((1000 : Int) : Rat) := by norm_num
    rw [h1, pyRound_intCast]
    norm_num

theorem foldl_min_spec (l : List Nat) :
    ∀ acc, l.foldl Nat.min acc ≤ acc ∧ ∀ a ∈ l, l.foldl Nat.min acc ≤ a := by
  induction l with
  | nil => simp
  | cons x xs ih =>
    intro acc
    simp only [List.foldl_cons]
    obtain ⟨h1, h2⟩ := ih (Nat.min acc x)
    refine ⟨le_trans h1 (Nat.min_le_left _ _), ?_⟩
    intro a ha
    rcases List.mem_cons.mp ha with rfl | ha
    · exact le_trans h1 (Nat.min_le_right _ _)
    · exact h2 a ha

theorem foldl_max_spec (l : List Nat) :
    ∀ acc, acc ≤ l.foldl Nat.max acc ∧ ∀ a ∈ l, a ≤ l.foldl Nat.max acc := by
  induction l with
  | nil => simp
  | cons x xs ih =>
    intro acc
    simp only [List.foldl_cons]
    obtain ⟨h1, h2⟩ := ih (Nat.max acc x)
    refine ⟨le_trans (Nat.le_max_left _ _) h1, ?_⟩
    intro a ha
    rcases List.mem_cons.mp ha with rfl | ha
    · exact le_trans (Nat.le_max_right _ _) h1
    · exact h2 a ha

theorem minL_le (l : List Nat) : ∀ a ∈ l, minL l ≤ a := by
  cases l with
  | nil => simp
  | cons x xs =>
    intro a ha
    rcases List.mem_cons.mp ha with rfl | ha
    · exact (foldl_min_spec xs a).1
    · exact (foldl_min_spec xs x).2 a ha

theorem le_maxL (l : List Nat) : ∀ a ∈ l, a ≤ maxL l := by
  cases l with
  | nil => simp
  | cons x xs =>
    intro a ha
    rcases List.mem_cons.mp ha with rfl | ha
    · exact (foldl_max_spec xs a).1
    · exact (foldl_max_spec xs x).2 a ha

theorem le_sum_of_forall_le (l : List Nat) (m : Nat) (h : ∀ a ∈ l, m ≤ a) :
    m * l.length ≤ l.sum := by
  induction l with
  | nil => simp
  | cons x xs ih =>
    simp only [List.length_cons, List.sum_cons, Nat.mul_succ]
    have hx : m ≤ x := h x (List.mem_cons_self x xs)
    have hxs := ih (fun a ha => h a (List.mem_cons_of_mem x ha))
    omega

theorem sum_le_of_forall_le (l : List Nat) (M : Nat) (h : ∀ a ∈ l, a ≤ M) :
    l.sum ≤ M * l.length := by
  induction l with
  | nil => simp
  | cons x xs ih =>
    simp only [List.length_cons, List.sum_cons, Nat.mul_succ]
    have hx : x ≤ M := h x (List.mem_cons_self x xs)
    have hxs := ih (fun a ha => h a (List.mem_cons_of_mem x ha))
    omega

/-- On one axis, the rounded mean of the occupied indices lies between their
min and their max. -/
theorem axis_bounds (l : List Nat) (h : l ≠ []) :
    (minL l : Int) ≤ pyRound (meanL l) ∧ pyRound (meanL l) ≤ (maxL l : Int) := by
  have hlen : 0 < l.length := List.length_pos.mpr h
  have hlenQ : (0 : Rat) < (l.length : Rat) := by exact_mod_cast hlen
  have hmin : ((minL l : Nat) : Rat) ≤ meanL l := by
    unfold meanL
    rw [le_div_iff₀ hlenQ]
    have := le_sum_of_forall_le l (minL l) (minL_le l)
    exact_mod_cast this
  have hmax : meanL l ≤ ((maxL l : Nat) : Rat) := by
    unfold meanL
    rw [div_le_iff₀ hlenQ]
    have := sum_le_of_forall_le l (maxL l) (le_maxL l)
    exact_mod_cast this
  obtain ⟨hf, hc⟩ := pyRound_bounds (meanL l)
  constructor
  · have h1 : ((minL l : Nat) : Int) ≤ ⌊meanL l⌋ := Int.le_floor.mpr (by exact_mod_cast hmin)
    omega
  · have h1 : ⌈meanL l⌉ ≤ ((maxL l : Nat) : Int) := Int.ceil_le.mpr (by exact_mod_cast hmax)
    omega

theorem mem_collectRecords {meta : VolumeMeta} {files : List MaskFile} {r : LandmarkRecord} :
    r ∈ collectRecords meta files ↔ ∃ f ∈ files, processMask meta f = .record r := by
  unfold collectRecords
  rw [List.mem_filterMap]
  constructor
  · rintro ⟨f, hf, heq⟩
    refine ⟨f, hf, ?_⟩
    cases hpm : processMask meta f <;> rw [hpm] at heq <;> simp at heq
    rw [heq]
  · rintro ⟨f, hf, heq⟩
    exact ⟨f, hf, by rw [heq]⟩

theorem processMask_record {meta : VolumeMeta} {f : MaskFile} {r : LandmarkRecord}
    (h : processMask meta f = .record r) :
    ∃ coords, coords ≠ [] ∧ f.data = .grid coords ∧
      r = mkRecord meta (pyReplaceEmpty f.name "vertebrae_") coords := by
  unfold processMask at h
  by_cases hq : pyStartsWith f.name "vertebrae_"
  · rw [if_pos hq] at h
    cases hd : f.data with
    | corrupt e => rw [hd] at h; exact absurd h (by simp)
    | grid coords =>
      rw [hd] at h
      cases coords with
      | nil => exact absurd h (by simp)
      | cons c cs =>
        simp only [ProcessOutcome.record.injEq] at h
        exact ⟨c :: cs, by simp, rfl, h.symm⟩
  · rw [if_neg hq] at h
    exact absurd h (by simp)

/-- Componentwise bounds invariant for an emitted record. -/
theorem record_bounds {meta : VolumeMeta} {f : MaskFile} {r : LandmarkRecord}
    (h : processMask meta f = .record r) :
    ((r.boundsMin.1 : Int) ≤ r.center.1 ∧ r.center.1 ≤ (r.boundsMax.1 : Int)) ∧
    ((r.boundsMin.2.1 : Int) ≤ r.center.2.1 ∧ r.center.2.1 ≤ (r.boundsMax.2.1 : Int)) ∧
    ((r.boundsMin.2.2 : Int) ≤ r.center.2.2 ∧ r.center.2.2 ≤ (r.boundsMax.2.2 : Int)) := by
  obtain ⟨coords, hne, _, hr⟩ := processMask_record h
  subst hr
  unfold mkRecord
  have hx : coords.map (fun c => c.2.2) ≠ [] := by
    simpa [List.map_eq_nil_iff] using hne
  have hy : coords.map (fun c => c.2.1) ≠ [] := by
    simpa [List.map_eq_nil_iff] using hne
  have hz : coords.map (fun c => c.1) ≠ [] := by
    simpa [List.map_eq_nil_iff] using hne
  exact ⟨axis_bounds _ hx, axis_bounds _ hy, axis_bounds _ hz⟩

/-- Inversion of a successful extraction call: the returned records come
from the per-file loop and the warnings are exactly the collected ones. -/
theorem parse_ok_inv {meta : VolumeMeta} {files : List MaskFile}
    {recs : List LandmarkRecord} {w : List String}
    (h : parseSegmentationResults meta files = .ok (recs, w)) :
    (∀ r ∈ recs, r ∈ collectRecords meta files) ∧ w = collectWarnings meta files := by
  unfold parseSegmentationResults at h
  cases hs : sortByVertebraKey (fun r => r.label) (collectRecords meta files) with
  | none => rw [hs] at h; exact absurd h (by simp)
  | some sorted =>
    rw [hs] at h
    simp only [Except.ok.injEq, Prod.mk.injEq] at h
    obtain ⟨h1, h2⟩ := h
    subst h1
    subst h2
    exact ⟨fun r hr => sortByVertebraKey_mem _ _ _ hs r hr, rfl⟩

/-! ### Concrete fixtures used by witnesses and counterexamples -/

/-- Unit spacing, zero origin. -/
def meta0 : VolumeMeta := ⟨(1, 1, 1), (0, 0, 0)⟩

/-! ### Claims -/

/-- C1: for every input, device and fast-mode flag, `run_inference` never
propagates an exception: whenever the volume load, the external model call
or the result parsing raises, `run` returns `success=false` with an error
message and the elapsed processing time in milliseconds. -/
theorem run_inference_wraps_failures (dev : String) (fm : Bool) (env : InferenceEnv)
    (h : (∃ e, env.loadResult = .error e) ∨ (∃ e, env.segResult = .error e) ∨
      (∃ m fs e, loadDicom env.loadResult = .ok m ∧ env.segResult = .ok fs ∧
        parseSegmentationResults m fs = .error e)) :
    (runInference dev fm env).success = false ∧
    (∃ msg, (runInference dev fm env).error = some msg) ∧
    (runInference dev fm env).processingTimeMs = roundTo 2 env.elapsedMs := by
  obtain ⟨e, he⟩ : ∃ e, runBody env = .error e := by
    rcases h with ⟨e, he⟩ | ⟨e, he⟩ | ⟨m, fs, e, hm, hfs, hp⟩
    · exact ⟨"Failed to load DICOM file: " ++ e, by simp [runBody, loadDicom, he]⟩
    · cases hl : env.loadResult with
      | error e2 =>
        exact ⟨"Failed to load DICOM file: " ++ e2, by simp [runBody, loadDicom, hl]⟩
      | ok m => exact ⟨e, by simp [runBody, loadDicom, hl, he]⟩
    · exact ⟨e, by simp [runBody, hm, hfs, hp]⟩
  unfold runInference
  rw [he]
  exact ⟨rfl, ⟨e, rfl⟩, rfl⟩

/-- Witness for C1: a failing DICOM load yields a structured failure. -/
theorem run_inference_wraps_failures_witness :
    (runInference "cpu" true ⟨.error "io", .ok [], 5⟩).success = false ∧
    (∃ msg, (runInference "cpu" true ⟨.error "io", .ok [], 5⟩).error = some msg) ∧
    (runInference "cpu" true ⟨.error "io", .ok [], 5⟩).processingTimeMs = roundTo 2 5 :=
  run_inference_wraps_failures "cpu" true ⟨.error "io", .ok [], 5⟩ (Or.inl ⟨"io", rfl⟩)

/-- C2: the Anatomical Ordering Policy sorts valid labels by section rank
(C < T < L < S) and then by the numeric suffix compared as an integer; the
documented example sorts as expected, the output is a permutation of the
input pairwise ordered by the key, and a label with an unknown section
letter never precedes one with a known section. -/
theorem anatomical_order_sorts :
    (sortLabels ["T12", "T2", "C7", "L1", "S1", "C1"] =
      some ["C1", "C7", "T2", "T12", "L1", "S1"]) ∧
    (∀ ls ls', sortLabels ls = some ls' →
      ls'.Perm ls ∧ ls'.Pairwise labelLe ∧
      ls'.Pairwise (fun a b => knownSection b → knownSection a)) := by
  refine ⟨by decide, ?_⟩
  intro ls ls' h
  obtain ⟨hperm, hpw⟩ := sortByVertebraKey_spec id ls ls' h
  exact ⟨hperm, hpw, hpw.imp (fun hab hb => labelLe_known _ _ hab hb)⟩

/-- Witness for C2: the documented example, with its ordering facts. -/
theorem anatomical_order_sorts_witness :
    ["C1", "C7", "T2", "T12", "L1", "S1"].Perm ["T12", "T2", "C7", "L1", "S1", "C1"] ∧
    List.Pairwise labelLe ["C1", "C7", "T2", "T12", "L1", "S1"] :=
  ⟨(anatomical_order_sorts.2 _ _ anatomical_order_sorts.1).1,
   (anatomical_order_sorts.2 _ _ anatomical_order_sorts.1).2.1⟩

/-- C3: every emitted record's confidence equals
`min(voxel_count / 1000, 1.0)`; this value is monotone in the voxel count,
lies in `[0, 1]`, and is exactly `1` once the count reaches `1000`. -/
theorem confidence_min_formula :
    (∀ meta f r, processMask meta f = .record r →
      r.confidence = min ((r.voxelCount : Rat) / 1000) 1) ∧
    (∀ v w : Nat, v ≤ w → confidenceOf v ≤ confidenceOf w) ∧
    (∀ v : Nat, 0 ≤ confidenceOf v ∧ confidenceOf v ≤ 1) ∧
    (∀ v : Nat, 1000 ≤ v → confidenceOf v = 1) := by
  refine ⟨?_, ?_, ?_, ?_⟩
  · intro meta f r h
    obtain ⟨coords, hne, hd, hr⟩ := processMask_record h
    subst hr
    exact confidenceOf_eq coords.length
  · intro v w h
    rw [confidenceOf_eq, confidenceOf_eq]
    have hc : (v : Rat) ≤ w := by exact_mod_cast h
    gcongr
  · intro v
    rw [confidenceOf_eq]
    refine ⟨le_min (by positivity) zero_le_one, min_le_right _ _⟩
  · intro v h
    rw [confidenceOf_eq]
    apply min_eq_right
    rw [le_div_iff₀ (by norm_num : (0 : Rat) < 1000)]
    have : (1000 : Rat) ≤ v := by exact_mod_cast h
    linarith

/-- Witness for C3: a one-voxel mask record satisfies the formula, and the
stand-alone facts hold at concrete counts. -/
theorem confidence_min_formula_witness :
    (processMask meta0 ⟨"vertebrae_C1", .grid [(0, 0, 0)]⟩ =
      .record (mkRecord meta0 "C1" [(0, 0, 0)])) ∧
    (mkRecord meta0 "C1" [(0, 0, 0)]).confidence =
      min (((mkRecord meta0 "C1" [(0, 0, 0)]).voxelCount : Rat) / 1000) 1 ∧
    confidenceOf 2 ≤ confidenceOf 3 ∧
    (0 ≤ confidenceOf 7 ∧ confidenceOf 7 ≤ 1) ∧
    confidenceOf 1234 = 1 :=
  ⟨rfl,
   confidence_min_formula.1 meta0 ⟨"vertebrae_C1", .grid [(0, 0, 0)]⟩ _ rfl,
   confidence_min_formula.2.1 2 3 (by norm_num),
   confidence_min_formula.2.2.1 7,
   confidence_min_formula.2.2.2 1234 (by norm_num)⟩

/-- C4: a qualifying mask file whose grid has zero occupied voxels emits no
record, and every record of a successful extraction has a strictly positive
voxel count. -/
theorem empty_mask_emits_no_record :
    (∀ meta name, pyStartsWith name "vertebrae_" = true →
      processMask meta ⟨name, .grid []⟩ = .emptySkip) ∧
    (∀ meta files recs w, parseSegmentationResults meta files = .ok (recs, w) →
      ∀ r ∈ recs, 0 < r.voxelCount) := by
  constructor
  · intro meta name h
    simp [processMask, h]
  · intro meta files recs w h r hr
    have hr' : r ∈ collectRecords meta files := (parse_ok_inv h).1 r hr
    obtain ⟨f, hf, hpm⟩ := mem_collectRecords.mp hr'
    obtain ⟨coords, hne, hd, hrec⟩ := processMask_record hpm
    subst hrec
    show 0 < coords.length
    exact List.length_pos.mpr hne

/-- Witness for C4: an empty C1 mask is skipped; a directory with an empty
mask and a one-voxel mask yields one record with positive voxel count. -/
theorem empty_mask_emits_no_record_witness :
    processMask meta0 ⟨"vertebrae_C1", .grid []⟩ = .emptySkip ∧
    0 < (mkRecord meta0 "L1" [(0, 0, 0)]).voxelCount :=
  ⟨empty_mask_emits_no_record.1 meta0 "vertebrae_C1" rfl,
   empty_mask_emits_no_record.2 meta0
     [⟨"vertebrae_C1", .grid []⟩, ⟨"vertebrae_L1", .grid [(0, 0, 0)]⟩]
     [mkRecord meta0 "L1" [(0, 0, 0)]] [] rfl _ (List.mem_singleton.mpr rfl)⟩

/-- C5 counterexample: one corrupt qualifying file plus one valid,
non-empty qualifying file whose derived label (`body`) has a non-numeric
suffix — the whole extraction call raises instead of returning the valid
file's record, so the claim as stated fails. -/
theorem corrupt_skip_counterexample :
    parseSegmentationResults meta0
      [⟨"vertebrae_C1", .corrupt "read error"⟩, ⟨"vertebrae_body", .grid [(0, 0, 0)]⟩] =
    .error "ValueError: invalid vertebra label in sort key" := by
  rfl

/-- C5 (amended): if one qualifying mask file is corrupt and the other
loads with occupied voxels and its derived label has a defined sort key,
the extraction warns, skips the corrupt file, and returns exactly the
record of the valid file. -/
theorem corrupt_skip_partial_failure (meta : VolumeMeta) (nameC nameV e : String)
    (coords : List (Nat × Nat × Nat))
    (hC : pyStartsWith nameC "vertebrae_" = true)
    (hV : pyStartsWith nameV "vertebrae_" = true)
    (hkey : (vertebraSortKey (pyReplaceEmpty nameV "vertebrae_")).isSome = true)
    (hne : coords ≠ []) :
    parseSegmentationResults meta [⟨nameC, .corrupt e⟩, ⟨nameV, .grid coords⟩] =
      .ok ([mkRecord meta (pyReplaceEmpty nameV "vertebrae_") coords],
           ["Warning: Failed to process " ++ nameC ++ ": " ++ e]) := by
  obtain ⟨k, hk⟩ := Option.isSome_iff_exists.mp hkey
  have hrec : collectRecords meta [⟨nameC, .corrupt e⟩, ⟨nameV, .grid coords⟩] =
      [mkRecord meta (pyReplaceEmpty nameV "vertebrae_") coords] := by
    cases coords with
    | nil => exact absurd rfl hne
    | cons c cs => simp [collectRecords, processMask, hC, hV]
  have hwarn : collectWarnings meta [⟨nameC, .corrupt e⟩, ⟨nameV, .grid coords⟩] =
      ["Warning: Failed to process " ++ nameC ++ ": " ++ e] := by
    cases coords with
    | nil => exact absurd rfl hne
    | cons c cs => simp [collectWarnings, processMask, hC, hV]
  have hlabel : (mkRecord meta (pyReplaceEmpty nameV "vertebrae_") coords).label =
      pyReplaceEmpty nameV "vertebrae_" := rfl
  have hsort : sortByVertebraKey (fun r => r.label)
      [mkRecord meta (pyReplaceEmpty nameV "vertebrae_") coords] =
      some [mkRecord meta (pyReplaceEmpty nameV "vertebrae_") coords] := by
    unfold sortByVertebraKey decorateKeys
    rw [hlabel, hk]
    simp [decorateKeys, List.insertionSort, List.orderedInsert]
  unfold parseSegmentationResults
  rw [hrec, hsort, hwarn]

/-- Witness for C5 (amended): corrupt C1 mask next to a valid one-voxel L1
mask. -/
theorem corrupt_skip_partial_failure_witness :
    parseSegmentationResults meta0
      [⟨"vertebrae_C1", .corrupt "boom"⟩, ⟨"vertebrae_L1", .grid [(0, 0, 0)]⟩] =
      .ok ([mkRecord meta0 (pyReplaceEmpty "vertebrae_L1" "vertebrae_") [(0, 0, 0)]],
           ["Warning: Failed to process " ++ "vertebrae_C1" ++ ": " ++ "boom"]) :=
  corrupt_skip_partial_failure meta0 "vertebrae_C1" "vertebrae_L1" "boom"
    [(0, 0, 0)] rfl rfl (by decide) (by simp)

/-- C6: every record of a successful extraction satisfies
`bounds_voxel.min ≤ center_voxel ≤ bounds_voxel.max` componentwise. -/
theorem center_within_bounds (meta : VolumeMeta) (files : List MaskFile)
    (recs : List LandmarkRecord) (w : List String)
    (h : parseSegmentationResults meta files = .ok (recs, w)) :
    ∀ r ∈ recs,
      ((r.boundsMin.1 : Int) ≤ r.center.1 ∧ r.center.1 ≤ (r.boundsMax.1 : Int)) ∧
      ((r.boundsMin.2.1 : Int) ≤ r.center.2.1 ∧ r.center.2.1 ≤ (r.boundsMax.2.1 : Int)) ∧
      ((r.boundsMin.2.2 : Int) ≤ r.center.2.2 ∧ r.center.2.2 ≤ (r.boundsMax.2.2 : Int)) := by
  intro r hr
  have hr' : r ∈ collectRecords meta files := (parse_ok_inv h).1 r hr
  obtain ⟨f, hf, hpm⟩ := mem_collectRecords.mp hr'
  exact record_bounds hpm

/-- Witness for C6: a two-voxel C1 mask. -/
theorem center_within_bounds_witness :
    (((mkRecord meta0 "C1" [(1, 2, 3), (3, 2, 1)]).boundsMin.1 : Int) ≤
        (mkRecord meta0 "C1" [(1, 2, 3), (3, 2, 1)]).center.1 ∧
      (mkRecord meta0 "C1" [(1, 2, 3), (3, 2, 1)]).center.1 ≤
        ((mkRecord meta0 "C1" [(1, 2, 3), (3, 2, 1)]).boundsMax.1 : Int)) ∧
    (((mkRecord meta0 "C1" [(1, 2, 3), (3, 2, 1)]).boundsMin.2.1 : Int) ≤
        (mkRecord meta0 "C1" [(1, 2, 3), (3, 2, 1)]).center.2.1 ∧
      (mkRecord meta0 "C1" [(1, 2, 3), (3, 2, 1)]).center.2.1 ≤
        ((mkRecord meta0 "C1" [(1, 2, 3), (3, 2, 1)]).boundsMax.2.1 : Int)) ∧
    (((mkRecord meta0 "C1" [(1, 2, 3), (3, 2, 1)]).boundsMin.2.2 : Int) ≤
        (mkRecord meta0 "C1" [(1, 2, 3), (3, 2, 1)]).center.2.2 ∧
      (mkRecord meta0 "C1" [(1, 2, 3), (3, 2, 1)]).center.2.2 ≤
        ((mkRecord meta0 "C1" [(1, 2, 3), (3, 2, 1)]).boundsMax.2.2 : Int)) :=
  center_within_bounds meta0 [⟨"vertebrae_C1", .grid [(1, 2, 3), (3, 2, 1)]⟩]
    [mkRecord meta0 "C1" [(1, 2, 3), (3, 2, 1)]] [] rfl _ (List.mem_singleton.mpr rfl)

/-- C7 counterexample: on a preparation failure `download_model` pushes the
error event to the sink and then re-raises, so the failure does reach the
caller, contradicting the claim that it is not raised past the sink. -/
theorem download_error_counterexample :
    (downloadModel "vertebrae" true ⟨.error "download failed", false⟩).1 =
      .error "download failed" := by
  rfl

/-- C7 (amended): for every registered task, a failure in the preparation
step is reported to the progress sink as an event with status `error`, a
message, and `progress = 0.0` — and the exception is then re-raised to the
caller of `download_model`. -/
theorem download_error_event_then_reraise (task : String) (env : DownloadEnv) (e : String)
    (htask : availableTasks.contains task = true)
    (hprep : env.prepare = .error e) :
    (downloadModel task true env).2 =
      [⟨"preparing", "Preparing to download " ++ taskName task, 0⟩,
       ⟨"error", "Failed to prepare models: " ++ e, 0⟩] ∧
    (downloadModel task true env).1 = .error e := by
  unfold downloadModel
  rw [htask, hprep]
  exact ⟨rfl, rfl⟩

/-- Witness for C7 (amended): the vertebrae task with a failing
preparation step. -/
theorem download_error_event_then_reraise_witness :
    (downloadModel "vertebrae" true ⟨.error "boom", false⟩).2 =
      [⟨"preparing", "Preparing to download " ++ taskName "vertebrae", 0⟩,
       ⟨"error", "Failed to prepare models: " ++ "boom", 0⟩] ∧
    (downloadModel "vertebrae" true ⟨.error "boom", false⟩).1 = .error "boom" :=
  download_error_event_then_reraise "vertebrae" ⟨.error "boom", false⟩ "boom" rfl rfl

/-- C8 counterexample: deleting with the cache root absent returns
`success=False` with NO `freed_space_mb` entry in the result dictionary,
not one equal to zero. -/
theorem delete_absent_counterexample :
    deleteModel "vertebrae" ⟨false, []⟩ =
      .ok (⟨false, "No models found to delete", none⟩, ⟨false, []⟩) ∧
    (DeleteResult.mk false "No models found to delete" none).freedSpaceMb ≠ some 0 := by
  exact ⟨rfl, by simp⟩

/-- C8 (amended): for every registered task, `delete_model` on an absent
cache root returns `success=false` with the no-models message and no
freed-space entry, leaves the cache state unchanged (zero bytes freed), and
does not raise. -/
theorem delete_absent_no_freed_field (task : String) (szs : List Nat)
    (h : availableTasks.contains task = true) :
    deleteModel task ⟨false, szs⟩ =
      .ok (⟨false, "No models found to delete", none⟩, ⟨false, szs⟩) := by
  unfold deleteModel
  rw [h]
  rfl

/-- Witness for C8 (amended): the vertebrae task with an absent cache. -/
theorem delete_absent_no_freed_field_witness :
    deleteModel "vertebrae" ⟨false, []⟩ =
      .ok (⟨false, "No models found to delete", none⟩, ⟨false, []⟩) :=
  delete_absent_no_freed_field "vertebrae" [] rfl

/-- C9: mapping a voxel coordinate through the physical transform
`x * spacing + origin` and back through `(p - origin) / spacing` recovers
the coordinate exactly, for every positive spacing. -/
theorem physical_roundtrip (s o x : Rat) (h : 0 < s) :
    voxelOfPhys s o (physOfVoxel s o x) = x := by
  unfold physOfVoxel voxelOfPhys
  field_simp

/-- Witness for C9: spacing 2, origin 5, coordinate 7. -/
theorem physical_roundtrip_witness :
    (0 : Rat) < 2 ∧ voxelOfPhys 2 5 (physOfVoxel 2 5 7) = 7 :=
  ⟨by norm_num, physical_roundtrip 2 5 7 (by norm_num)⟩

/-- C10: the sort key is partial — it is undefined on the label `body`
derived from the qualifying file `vertebrae_body` — and because the final
sort runs outside the per-file exception handler, a readable non-empty mask
file with such a name makes the entire extraction call fail instead of
being skipped. -/
theorem non_numeric_label_aborts_extraction :
    vertebraSortKey "body" = none ∧
    parseSegmentationResults meta0
      [⟨"vertebrae_body", .grid [(0, 0, 0)]⟩, ⟨"vertebrae_C1", .grid [(0, 0, 0)]⟩] =
      .error "ValueError: invalid vertebra label in sort key" := by
  exact ⟨by decide, rfl⟩

end OpenScans
